import Mathlib

/-!
Verification development for the MovieClip timeline engine
(`src/core/src/display_object/movie_clip.rs`).

The engine is shallowly embedded: the tag stream is a list of decoded
control tags (byte positions become tag indices), the per-instance
mutable state of `MovieClipData` is an explicit record, and the external
collaborators (audio backend, action queue, character library) are
modelled as logs and finite maps inside that record, following the
interface contracts of the specification (its section 6).
-/

namespace RuffleMC

/-- PlaceObjectAction from the swf crate: `Place(id)`, `Modify`, `Replace(id)`. -/
inductive PlaceAction
  | place (id : Nat)
  | modify
  | replace (id : Nat)
deriving DecidableEq, Repr

/-- SoundEvent from the swf crate: the "Sync" setting of a StartSound tag. -/
inductive SoundEvent
  | event
  | start
  | stop
deriving DecidableEq, Repr

/-- A decoded `swf::PlaceObject` record. Property payloads (matrix, color
transform, ...) are opaque values modelled as `Nat` (strings for names);
`Default::default()` of the Rust payload types is modelled as `0` / `""`. -/
structure PlaceObjectRec where
  depth : Nat
  action : PlaceAction
  matrix : Option Nat
  colorTransform : Option Nat
  ratio : Option Nat
  name : Option String
  clipDepth : Option Nat
  className : Option String
  backgroundColor : Option Nat
deriving DecidableEq, Repr

/-- The control and definition tags of a clip's tag stream that the claims
concern. `other` stands for any tag the engine skips. Byte positions of the
Rust reader become indices into the tag list. -/
inductive Tag
  | placeObject (po : PlaceObjectRec)
  | removeObject (depth : Nat)
  | doAction (code : Nat)
  | startSound (id : Nat) (ev : SoundEvent)
  | soundStreamBlock
  | setBackgroundColor (c : Nat)
  | frameLabel (label : String)
  | showFrame
  | endTag
  | other
deriving DecidableEq, Repr

/-- Option fallback: keep the first option if present, else the second
(`if x.is_none() { x = y }` / `if y.is_some() { x = y }` patterns). -/
def optOr {α : Type} : Option α → Option α → Option α
  | some x, _ => some x
  | none, b => b

/-- Association-list lookup keyed by `Nat` (models `BTreeMap::get` /
`HashMap::get`). -/
def lookupA {α : Type} : Nat → List (Nat × α) → Option α
  | _, [] => none
  | d, (d', v) :: rest => if d = d' then some v else lookupA d rest

/-- Association-list insert replacing an existing binding
(models `BTreeMap::insert` / `HashMap::insert`). -/
def insertA {α : Type} (d : Nat) (v : α) : List (Nat × α) → List (Nat × α)
  | [] => [(d, v)]
  | (d', v') :: rest =>
    if d = d' then (d, v) :: rest else (d', v') :: insertA d v rest

/-- Association-list removal (models `BTreeMap::remove` / `HashMap::remove`). -/
def removeA {α : Type} : Nat → List (Nat × α) → List (Nat × α)
  | _, [] => []
  | d, (d', v) :: rest =>
    if d = d' then removeA d rest else (d', v) :: removeA d rest

/-! ## Frame labels (preload pass, `MovieClipData::frame_label` and
`MovieClip::frame_label_to_number`) -/

/-- String-keyed insert replacing an existing binding, as
`HashMap::<String, FrameNumber>::insert` does in `frame_label`. -/
def insertLabel (l : String) (f : Nat) : List (String × Nat) → List (String × Nat)
  | [] => [(l, f)]
  | (l', f') :: rest =>
    if l = l' then (l, f) :: rest else (l', f') :: insertLabel l f rest

/-- String-keyed lookup, as `frame_labels.get(frame_label)`. -/
def lookupLabel (l : String) : List (String × Nat) → Option Nat
  | [] => none
  | (l', f) :: rest => if l = l' then some f else lookupLabel l rest

/-- The frame-label bookkeeping of the preload pass: walk the tag stream to
the `End` sentinel, incrementing `cur_frame` on ShowFrame and inserting
`label -> cur_frame` on FrameLabel (insert replaces; a duplicate is logged). -/
def preloadLabels : List Tag → Nat → List (String × Nat) → List (String × Nat)
  | [], _, acc => acc
  | Tag.endTag :: _, _, acc => acc
  | Tag.showFrame :: rest, cur, acc => preloadLabels rest (cur + 1) acc
  | Tag.frameLabel l :: rest, cur, acc => preloadLabels rest cur (insertLabel l cur acc)
  | _ :: rest, cur, acc => preloadLabels rest cur acc

/-- `MovieClip::frame_label_to_number` after preloading the given stream
(preload starts with `cur_frame = 1` and empty labels). -/
def frameLabelToNumber (stream : List Tag) (l : String) : Option Nat :=
  lookupLabel l (preloadLabels stream 1 [])

/-- The frame of the last occurrence of label `l` in the stream, counting
frames from `cur`; stops at the `End` sentinel. Reference function for the
amended duplicate-label rule. -/
def lastLabelFrame (l : String) : List Tag → Nat → Option Nat
  | [], _ => none
  | Tag.endTag :: _, _ => none
  | Tag.showFrame :: rest, cur => lastLabelFrame l rest (cur + 1)
  | Tag.frameLabel l' :: rest, cur =>
    match lastLabelFrame l rest cur with
    | some f => some f
    | none => if l' = l then some cur else none
  | _ :: rest, cur => lastLabelFrame l rest cur

/-! ## GotoPlaceObject -/

/-- `GotoPlaceObject`: the per-depth accumulator used by `run_goto`. -/
structure GotoPlaceObject where
  frame : Nat
  place_object : PlaceObjectRec
deriving DecidableEq, Repr

/-- `GotoPlaceObject::new`: on a rewind, a `Place` action has each absent
field among matrix, color transform, ratio, name, clip depth and class name
filled with its default value. -/
def GotoPlaceObject.new (frame : Nat) (po : PlaceObjectRec) (is_rewind : Bool) :
    GotoPlaceObject :=
  let po :=
    if is_rewind then
      match po.action with
      | PlaceAction.place _ =>
        { po with
          matrix := optOr po.matrix (some 0)
          colorTransform := optOr po.colorTransform (some 0)
          ratio := optOr po.ratio (some 0)
          name := optOr po.name (some "")
          clipDepth := optOr po.clipDepth (some 0)
          className := optOr po.className (some "") }
      | _ => po
    else po
  { frame := frame, place_object := po }

/-- `GotoPlaceObject::id`: the character id of a `Place`/`Replace`, `0` for
`Modify`. -/
def GotoPlaceObject.id (g : GotoPlaceObject) : Nat :=
  match g.place_object.action with
  | PlaceAction.place i => i
  | PlaceAction.replace i => i
  | PlaceAction.modify => 0

/-- `GotoPlaceObject::modifies_original_item`: whether the action is `Replace`. -/
def GotoPlaceObject.modifiesOriginalItem (g : GotoPlaceObject) : Bool :=
  match g.place_object.action with
  | PlaceAction.replace _ => true
  | _ => false

/-- `GotoPlaceObject::merge`: fold the newer record `next` into `cur`.
A `Modify` keeps the old action and frame; any other action replaces both.
Each optional field present on `next` overwrites the one on `cur`. -/
def GotoPlaceObject.merge (cur next : GotoPlaceObject) : GotoPlaceObject :=
  let af : PlaceAction × Nat :=
    match next.place_object.action with
    | PlaceAction.modify => (cur.place_object.action, cur.frame)
    | a => (a, next.frame)
  { frame := af.2
    place_object :=
      { cur.place_object with
        action := af.1
        matrix := optOr next.place_object.matrix cur.place_object.matrix
        colorTransform :=
          optOr next.place_object.colorTransform cur.place_object.colorTransform
        ratio := optOr next.place_object.ratio cur.place_object.ratio
        name := optOr next.place_object.name cur.place_object.name
        clipDepth := optOr next.place_object.clipDepth cur.place_object.clipDepth
        className := optOr next.place_object.className cur.place_object.className
        backgroundColor :=
          optOr next.place_object.backgroundColor cur.place_object.backgroundColor } }

/-! ## Per-instance state -/

/-- A child display object on the display list. The claims only need the
identity (`instId`), character id, `place_frame` and the display properties
set by `apply_place_object`. Children are modelled as leaf display objects:
their own `run_frame` has no effect on the parent's state. -/
structure Child where
  instId : Nat
  charId : Nat
  placeFrame : Nat
  matrix : Nat
  colorTransform : Nat
  ratio : Nat
  name : String
  clipDepth : Nat
deriving DecidableEq, Repr

/-- Modelled from the spec: `apply_place_object` (display-object support code
outside this repository slice) overwrites each display property that is
present on the placement record and leaves absent ones unchanged. -/
def applyPlaceObject (c : Child) (po : PlaceObjectRec) : Child :=
  { c with
    matrix := po.matrix.getD c.matrix
    colorTransform := po.colorTransform.getD c.colorTransform
    ratio := po.ratio.getD c.ratio
    name := po.name.getD c.name
    clipDepth := po.clipDepth.getD c.clipDepth }

/-- The immutable data of one clip definition plus the context collaborators
that are read-only during playback: `MovieClipStatic` (total frames, tag
stream) and the library's `get_sound` map. -/
structure Env where
  totalFrames : Nat
  stream : List Tag
  audioStreamInfo : Bool
  sounds : Nat → Option Nat

/-- The mutable state of `MovieClipData` together with the observable effects
on the external collaborators: the queued actions, the audio backend's
playing sounds and stream handles (as logs), the unload events propagated to
removed children, and the movie background color. -/
structure St where
  currentFrame : Nat
  tagStreamPos : Nat
  playing : Bool
  audioStream : Option Nat
  children : List (Nat × Child)
  nextInst : Nat
  nextStream : Nat
  queuedActions : List Nat
  playingSounds : List Nat
  startedSounds : List Nat
  stoppedStreams : List Nat
  unloaded : List Nat
  backgroundColor : Nat
deriving Repr

/-- A convenient all-zero initial state. -/
def st0 : St :=
  { currentFrame := 0, tagStreamPos := 0, playing := true, audioStream := none
    children := [], nextInst := 0, nextStream := 0, queuedActions := []
    playingSounds := [], startedSounds := [], stoppedStreams := []
    unloaded := [], backgroundColor := 0 }

/-- `MovieClipData::stop`: clear the Playing flag and stop any active audio
stream through the backend. -/
def stopClip (s : St) : St :=
  let s := { s with playing := false }
  match s.audioStream with
  | some h => { s with audioStream := none, stoppedStreams := h :: s.stoppedStreams }
  | none => s

/-- `MovieClipData::play`: only clips with more than one frame can play. -/
def playClip (env : Env) (s : St) : St :=
  if 1 < env.totalFrames then { s with playing := true } else s

/-- One frame's worth of tags from the head of the list, together with the
number of tags the reader consumes: decoding halts past a `ShowFrame`
sentinel, at an `End` tag, or when the slice is exhausted (modelled from the
spec's `decode_tags` contract, section 4.1). -/
def splitFrame : List Tag → List Tag × Nat
  | [] => ([], 0)
  | Tag.showFrame :: _ => ([], 1)
  | Tag.endTag :: _ => ([], 0)
  | t :: rest =>
    let r := splitFrame rest
    (t :: r.1, r.2 + 1)

/-- `library.instantiate_by_id` followed by the child bookkeeping of
`MovieClipData::instantiate_child`: insert the fresh child at `depth`
(unloading a previous occupant), set `place_frame` to the current frame,
optionally copy the previous occupant's display properties (`Replace`), and
apply the placement record. Instantiation of the invalid character id `0`
fails (logged and skipped in the source). -/
def instantiateChild (s : St) (id depth : Nat) (po : PlaceObjectRec)
    (copyPrev : Bool) : St × Option Child :=
  if id = 0 then (s, none)
  else
    let prev := lookupA depth s.children
    let fresh : Child :=
      { instId := s.nextInst, charId := id, placeFrame := s.currentFrame
        matrix := 0, colorTransform := 0, ratio := 0, name := "", clipDepth := 0 }
    let fresh :=
      if copyPrev then
        match prev with
        | some p =>
          { fresh with
            matrix := p.matrix, colorTransform := p.colorTransform
            ratio := p.ratio, name := p.name, clipDepth := p.clipDepth }
        | none => fresh
      else fresh
    let fresh := applyPlaceObject fresh po
    ({ s with
        children := insertA depth fresh s.children
        nextInst := s.nextInst + 1
        unloaded :=
          match prev with
          | some p => p.instId :: s.unloaded
          | none => s.unloaded },
      some fresh)

/-- `MovieClipData::start_sound_1`: dispatch on the `SoundEvent` of a
StartSound tag whose id resolves in the library. The audio backend (spec
section 6) is modelled as the multiset of playing handle instances plus a log
of started instances. -/
def startSound1 (env : Env) (s : St) (id : Nat) (ev : SoundEvent) : St :=
  match env.sounds id with
  | some h =>
    match ev with
    | SoundEvent.event =>
      { s with playingSounds := h :: s.playingSounds
               startedSounds := h :: s.startedSounds }
    | SoundEvent.start =>
      if h ∈ s.playingSounds then s
      else
        { s with playingSounds := h :: s.playingSounds
                 startedSounds := h :: s.startedSounds }
    | SoundEvent.stop =>
      { s with playingSounds := s.playingSounds.filter (fun x => x ≠ h) }
  | none => s

/-- `MovieClipData::sound_stream_block`: if the clip has a streamed-audio
header and no active stream, begin one via the backend (fresh handle). -/
def soundStreamBlockTag (env : Env) (s : St) : St :=
  if env.audioStreamInfo then
    match s.audioStream with
    | none => { s with audioStream := some s.nextStream, nextStream := s.nextStream + 1 }
    | some _ => s
  else s

/-- The per-tag callback of `run_frame_internal`: dispatch one control tag,
tracking whether a SoundStreamBlock was seen. Display tags (PlaceObject,
RemoveObject) are only honoured when `rda` (`run_display_actions`) is true. -/
def runFrameTag (env : Env) (rda : Bool) (acc : St × Bool) (t : Tag) : St × Bool :=
  let s := acc.1
  match t with
  | Tag.doAction a => ({ s with queuedActions := s.queuedActions ++ [a] }, acc.2)
  | Tag.placeObject po =>
    if rda then
      match po.action with
      | PlaceAction.place id => ((instantiateChild s id po.depth po false).1, acc.2)
      | PlaceAction.replace id => ((instantiateChild s id po.depth po true).1, acc.2)
      | PlaceAction.modify =>
        match lookupA po.depth s.children with
        | some c =>
          ({ s with children := insertA po.depth (applyPlaceObject c po) s.children },
            acc.2)
        | none => (s, acc.2)
    else (s, acc.2)
  | Tag.removeObject d =>
    if rda then
      match lookupA d s.children with
      | some c =>
        ({ s with children := removeA d s.children, unloaded := c.instId :: s.unloaded },
          acc.2)
      | none => (s, acc.2)
    else (s, acc.2)
  | Tag.setBackgroundColor c => ({ s with backgroundColor := c }, acc.2)
  | Tag.startSound id ev => (startSound1 env s id ev, acc.2)
  | Tag.soundStreamBlock => (soundStreamBlockTag env s, true)
  | _ => (s, acc.2)

/-- The body of `run_frame_internal` after the frame-number advance: decode
one frame's tags from `tag_stream_pos`, save the reader position, and stop
the audio stream if it was active but the frame carried no stream block. -/
def runFrameCore (env : Env) (rda : Bool) (s : St) : St :=
  let fr := splitFrame (env.stream.drop s.tagStreamPos)
  let res := fr.1.foldl (runFrameTag env rda) (s, false)
  let s' := { res.1 with tagStreamPos := s.tagStreamPos + fr.2 }
  match s'.audioStream, res.2 with
  | some h, false =>
    { s' with audioStream := none, stoppedStreams := h :: s'.stoppedStreams }
  | _, _ => s'

/-! ## Goto -/

/-- Phase A of `run_goto` on a rewind: reset the reader and the frame
counter, and remove (unloading) every child placed after the target frame. -/
def rewindPhaseA (frame : Nat) (s : St) : St :=
  { s with
    tagStreamPos := 0
    currentFrame := 0
    children := s.children.filter (fun p => decide (p.2.placeFrame ≤ frame))
    unloaded :=
      ((s.children.filter (fun p => decide (frame < p.2.placeFrame))).map
        (fun p => p.2.instId)) ++ s.unloaded }

/-- The per-tag callback of the aggregation loop of `run_goto`
(`goto_place_object` / `goto_remove_object`); every other tag is ignored. -/
def gotoAggFrame (isRewind : Bool) (acc : St × List (Nat × GotoPlaceObject))
    (t : Tag) : St × List (Nat × GotoPlaceObject) :=
  let s := acc.1
  let cmds := acc.2
  match t with
  | Tag.placeObject po =>
    let g := GotoPlaceObject.new s.currentFrame po isRewind
    let cmds' :=
      match lookupA po.depth cmds with
      | some prev => insertA po.depth (GotoPlaceObject.merge prev g) cmds
      | none => cmds ++ [(po.depth, g)]
    (s, cmds')
  | Tag.removeObject d =>
    let cmds := removeA d cmds
    if isRewind then (s, cmds)
    else
      match lookupA d s.children with
      | some c =>
        ({ s with children := removeA d s.children, unloaded := c.instId :: s.unloaded },
          cmds)
      | none => (s, cmds)
  | _ => (s, cmds)

/-- The aggregation loop of `run_goto`: step `count` frames forward,
incrementing `current_frame`, remembering the position at the start of each
frame, and folding every frame's tags into the goto commands. The reader
position is carried in `tagStreamPos`. -/
def gotoLoop (env : Env) (isRewind : Bool) :
    Nat → St → List (Nat × GotoPlaceObject) → Nat →
    St × List (Nat × GotoPlaceObject) × Nat
  | 0, s, cmds, framePos => (s, cmds, framePos)
  | n + 1, s, cmds, _ =>
    let framePos := s.tagStreamPos
    let s := { s with currentFrame := s.currentFrame + 1 }
    let fr := splitFrame (env.stream.drop s.tagStreamPos)
    let r := fr.1.foldl (gotoAggFrame isRewind) (s, cmds)
    let s := { r.1 with tagStreamPos := s.tagStreamPos + fr.2 }
    gotoLoop env isRewind n s r.2 framePos

/-- The instantiation path of `run_goto_command`: instantiate the aggregated
character (copying properties on `Replace`), then set the fresh child's
`place_frame` to the frame where it would have been placed naturally. -/
def gotoInstantiate (s : St) (depth : Nat) (params : GotoPlaceObject) : St :=
  let r := instantiateChild s params.id depth params.place_object
    params.modifiesOriginalItem
  match r.2 with
  | some c =>
    { r.1 with
      children := insertA depth { c with placeFrame := params.frame } r.1.children }
  | none => r.1

/-- `run_goto`'s `run_goto_command` closure: a live occupant is modified in
place when the aggregated id is `0` or this is a rewind; otherwise a fresh
child is instantiated with `place_frame` set to the frame where it would
have been placed naturally. -/
def runGotoCommand (isRewind : Bool) (s : St) (cmd : Nat × GotoPlaceObject) : St :=
  match lookupA cmd.1 s.children with
  | some prev =>
    if cmd.2.id = 0 || isRewind then
      { s with
        children := insertA cmd.1 (applyPlaceObject prev cmd.2.place_object) s.children }
    else gotoInstantiate s cmd.1 cmd.2
  | none => gotoInstantiate s cmd.1 cmd.2

/-- Everything `run_goto` does before re-running the target frame: phase A
on a rewind, the aggregation loop, the commands placed before the target
frame, and the seek of `current_frame` / `tag_stream_pos` to the start of
the target frame. Returns the state and the aggregated commands. -/
def gotoPre (env : Env) (ir : Bool) (frame : Nat) (s0 : St) :
    St × List (Nat × GotoPlaceObject) :=
  let s := if ir then rewindPhaseA frame s0 else s0
  let r := gotoLoop env ir (frame - s.currentFrame) s [] s.tagStreamPos
  let s1 := (r.2.1.filter (fun p => decide (p.2.frame < frame))).foldl
    (runGotoCommand ir) r.1
  ({ s1 with currentFrame := frame - 1, tagStreamPos := r.2.2 }, r.2.1)

/-- The commands of `run_goto` applied after re-running the target frame
(those whose first placement frame is at or past the target). -/
def gotoPost (ir : Bool) (frame : Nat) (cmds : List (Nat × GotoPlaceObject))
    (s : St) : St :=
  (cmds.filter (fun p => decide (frame ≤ p.2.frame))).foldl (runGotoCommand ir) s

/-- `MovieClipData::run_frame_internal`, with a fuel bound on the
(statically bounded) mutual recursion with `run_goto` through the looping
branch. With fuel `0` the state is returned unchanged; every theorem is
stated at a fuel large enough that this case is never reached. -/
def runFrameInternalF (env : Env) : Nat → Bool → St → St
  | 0, _, s => s
  | fuel + 1, rda, s =>
    if s.currentFrame < env.totalFrames then
      runFrameCore env rda { s with currentFrame := s.currentFrame + 1 }
    else if 1 < env.totalFrames then
      let ir := decide (1 < s.currentFrame)
      let p := gotoPre env ir 1 s
      gotoPost ir 1 p.2 (runFrameInternalF env fuel false p.1)
    else
      runFrameCore env rda (stopClip s)

/-- `MovieClipData::run_goto`, at a given fuel for the embedded
`run_frame_internal` call that re-runs the target frame. -/
def runGotoF (env : Env) (fuel : Nat) (frame : Nat) (s : St) : St :=
  let ir := decide (frame < s.currentFrame)
  let p := gotoPre env ir frame s
  gotoPost ir frame p.2 (runFrameInternalF env fuel false p.1)

/-- `run_goto` at the canonical fuel (the recursion depth through the
looping branch is statically at most two). -/
def runGoto (env : Env) (frame : Nat) (s : St) : St :=
  runGotoF env 4 frame s

/-- `run_frame_internal` at the canonical fuel. -/
def runFrameInternal (env : Env) (rda : Bool) (s : St) : St :=
  runFrameInternalF env 4 rda s

/-- The frame clamping of `goto_frame`: into `[1, total_frames]`. -/
def clampF (env : Env) (frame : Nat) : Nat :=
  if frame < 1 then 1 else if env.totalFrames < frame then env.totalFrames else frame

/-- The seek step of `goto_frame`: run the goto only when the clamped target
differs from the current frame. -/
def gotoFrameAux (env : Env) (frame : Nat) (s : St) : St :=
  if clampF env frame ≠ s.currentFrame then runGoto env (clampF env frame) s else s

/-- `MovieClipData::goto_frame`: stop or play, clamp the frame into
`[1, total_frames]`, and seek only when the target differs from the current
frame. -/
def gotoFrame (env : Env) (stop : Bool) (frame : Nat) (s : St) : St :=
  gotoFrameAux env frame (if stop then stopClip s else playClip env s)

/-- `MovieClip::next_frame`: advance by one with a stop-then-seek goto, only
when not already at the last frame. -/
def nextFrame (env : Env) (s : St) : St :=
  if s.currentFrame < env.totalFrames then
    gotoFrame env true (s.currentFrame + 1) s
  else s

/-- `MovieClip::prev_frame`: step back by one with a stop-then-seek goto,
only when past frame 1. -/
def prevFrame (env : Env) (s : St) : St :=
  if 1 < s.currentFrame then
    gotoFrame env true (s.currentFrame - 1) s
  else s

/-- `MovieClip::add_child_from_avm`: insert the child at `depth` (unloading
any previous occupant) and set its `place_frame` to `0`. -/
def addChildFromAvm (s : St) (c : Child) (depth : Nat) : St :=
  let prev := lookupA depth s.children
  { s with
    children := insertA depth { c with placeFrame := 0 } s.children
    unloaded :=
      match prev with
      | some p => p.instId :: s.unloaded
      | none => s.unloaded }

/-! ## Concrete instances used by counterexamples and witnesses -/

/-- A PlaceObject record with no optional field present and a `Modify` action. -/
def po0 : PlaceObjectRec :=
  { depth := 0, action := PlaceAction.modify, matrix := none, colorTransform := none
    ratio := none, name := none, clipDepth := none, className := none
    backgroundColor := none }

/-- A tag stream carrying the same frame label on frames 1 and 2. -/
def c1stream : List Tag :=
  [Tag.frameLabel "a", Tag.showFrame, Tag.frameLabel "a", Tag.showFrame]

/-- A single-frame clip whose stream carries a DoAction tag after the
ShowFrame sentinel. -/
def env2 : Env :=
  { totalFrames := 1, stream := [Tag.showFrame, Tag.doAction 7]
    audioStreamInfo := false, sounds := fun _ => none }

/-- The state of `env2`'s clip after its first frame has run. -/
def st2 : St := { st0 with currentFrame := 1, tagStreamPos := 1 }

/-- A bare `Place(5)` record. -/
def cpo3 : PlaceObjectRec := { po0 with depth := 1, action := PlaceAction.place 5 }

/-- A `Place(10)` record at depth 2. -/
def pB : PlaceObjectRec := { po0 with depth := 2, action := PlaceAction.place 10 }

/-- A five-frame clip that places character 10 at depth 2 on frame 2 and
removes it on frame 4. -/
def env4 : Env :=
  { totalFrames := 5
    stream := [Tag.showFrame, Tag.placeObject pB, Tag.showFrame, Tag.showFrame,
               Tag.removeObject 2, Tag.showFrame, Tag.showFrame]
    audioStreamInfo := false, sounds := fun _ => none }

/-- The live instance of character 10 placed on frame 2. -/
def cB : Child :=
  { instId := 100, charId := 10, placeFrame := 2, matrix := 0, colorTransform := 0
    ratio := 0, name := "", clipDepth := 0 }

/-- `env4`'s clip sitting on frame 3 with `cB` on the display list. -/
def st4 : St := { st0 with currentFrame := 3, tagStreamPos := 4, children := [(2, cB)] }

/-- A three-frame clip: place character 10 at depth 1 on frame 1, modify its
matrix on frame 3. -/
def env5 : Env :=
  { totalFrames := 3
    stream := [Tag.placeObject { po0 with depth := 1, action := PlaceAction.place 10 },
               Tag.showFrame, Tag.showFrame,
               Tag.placeObject { po0 with depth := 1, matrix := some 55 },
               Tag.showFrame]
    audioStreamInfo := false, sounds := fun _ => none }

/-- The live instance of character 10 as it stands on `env5`'s frame 3. -/
def cA : Child :=
  { instId := 100, charId := 10, placeFrame := 1, matrix := 55, colorTransform := 0
    ratio := 0, name := "", clipDepth := 0 }

/-- `env5`'s clip sitting on frame 3 with `cA` on the display list. -/
def st5 : St :=
  { st0 with currentFrame := 3, tagStreamPos := 5, children := [(1, cA)], nextInst := 101 }

/-- An environment whose library resolves sound id 3 to handle 9. -/
def env7 : Env :=
  { totalFrames := 2, stream := [Tag.showFrame, Tag.showFrame]
    audioStreamInfo := true, sounds := fun i => if i = 3 then some 9 else none }

/-- Example goto accumulators for the merge witness. -/
def g5old : GotoPlaceObject :=
  { frame := 1
    place_object := { po0 with depth := 4, action := PlaceAction.place 7, matrix := some 11 } }

/-- A newer accumulator carrying a `Replace` and a color transform. -/
def g5new : GotoPlaceObject :=
  { frame := 3
    place_object :=
      { po0 with depth := 4, action := PlaceAction.replace 8, colorTransform := some 22 } }

/-- The projection of the state a goto's idempotence law talks about: the
depth-to-child mapping with identities and properties, the current frame and
the saved tag-stream position. -/
def displayState (s : St) : List (Nat × Child) × Nat × Nat :=
  (s.children, s.currentFrame, s.tagStreamPos)

/-- Whether a tag is a SoundStreamBlock. -/
def isBlock : Tag → Bool
  | Tag.soundStreamBlock => true
  | _ => false

/-- The instance `cA` as a script-added child would stand: `place_frame = 0`. -/
def cA0 : Child := { cA with placeFrame := 0 }

/-- `env5`'s clip on frame 3 with the script-added child `cA0` at depth 1. -/
def st10 : St := { st5 with children := [(1, cA0)] }

/-- A clip with a streamed-audio header whose frame at position 0 carries no
SoundStreamBlock. -/
def env8 : Env :=
  { totalFrames := 3
    stream := [Tag.doAction 1, Tag.showFrame, Tag.showFrame, Tag.showFrame]
    audioStreamInfo := true, sounds := fun _ => none }

/-- `env8`'s clip with an active audio stream handle `5`. -/
def st8 : St := { st0 with currentFrame := 1, audioStream := some 5 }

/-! ## Association-list lemmas -/

theorem lookupA_insertA_self {α : Type} (d : Nat) (v : α) :
    ∀ l : List (Nat × α), lookupA d (insertA d v l) = some v
  | [] => by simp [insertA, lookupA]
  | (d', v') :: rest => by
    by_cases h : d = d'
    · simp [insertA, h, lookupA]
    · simp [insertA, h, lookupA, lookupA_insertA_self d v rest]

theorem lookupA_insertA_ne {α : Type} (d e : Nat) (v : α) (h : d ≠ e) :
    ∀ l : List (Nat × α), lookupA d (insertA e v l) = lookupA d l
  | [] => by simp [insertA, lookupA, h]
  | (d', v') :: rest => by
    by_cases he : e = d'
    · subst he
      simp [insertA, lookupA, h]
    · simp only [insertA, if_neg he, lookupA]
      by_cases hd : d = d'
      · simp [hd]
      · simp [hd, lookupA_insertA_ne d e v h rest]

theorem lookupA_removeA_self {α : Type} (d : Nat) :
    ∀ l : List (Nat × α), lookupA d (removeA d l) = none
  | [] => by simp [removeA, lookupA]
  | (d', v') :: rest => by
    by_cases h : d = d'
    · subst h
      simp [removeA, lookupA_removeA_self d rest]
    · simp [removeA, h, lookupA, lookupA_removeA_self d rest]

theorem lookupA_removeA_ne {α : Type} (d e : Nat) (h : d ≠ e) :
    ∀ l : List (Nat × α), lookupA d (removeA e l) = lookupA d l
  | [] => by simp [removeA, lookupA]
  | (d', v') :: rest => by
    by_cases he : e = d'
    · subst he
      simp [removeA, lookupA, h, lookupA_removeA_ne d e h rest]
    · simp only [removeA, if_neg he, lookupA]
      by_cases hd : d = d'
      · simp [hd]
      · simp [hd, lookupA_removeA_ne d e h rest]

theorem lookupA_filter_keep {α : Type} (d : Nat) (c : α) (p : Nat × α → Bool) :
    ∀ l : List (Nat × α), lookupA d l = some c → p (d, c) = true →
      lookupA d (l.filter p) = some c
  | [], h, _ => by simp [lookupA] at h
  | (d', v') :: rest, h, hp => by
    by_cases hd : d = d'
    · subst hd
      simp only [lookupA, if_pos rfl] at h
      cases h
      simp [List.filter, hp, lookupA]
    · simp only [lookupA, if_neg hd] at h
      have := lookupA_filter_keep d c p rest h hp
      simp only [List.filter]
      cases hpv : p (d', v') with
      | true => simpa [lookupA, hd] using this
      | false => exact this

theorem lookupA_mem {α : Type} (d : Nat) (c : α) :
    ∀ l : List (Nat × α), lookupA d l = some c → (d, c) ∈ l
  | [], h => by simp [lookupA] at h
  | (d', v') :: rest, h => by
    by_cases hd : d = d'
    · subst hd
      simp only [lookupA, if_pos rfl] at h
      cases h
      exact List.mem_cons_self _ _
    · simp only [lookupA, if_neg hd] at h
      exact List.mem_cons_of_mem _ (lookupA_mem d c rest h)

theorem optOr_none_right {α : Type} (a : Option α) : optOr a none = a := by
  cases a <;> simp [optOr]

/-! ## Frame-label lemmas (claim C1) -/

theorem lookupLabel_insertLabel (l l' : String) (f : Nat) :
    ∀ acc : List (String × Nat),
      lookupLabel l (insertLabel l' f acc) =
        if l = l' then some f else lookupLabel l acc
  | [] => by
    by_cases h : l = l' <;> simp [insertLabel, lookupLabel, h]
  | (l₀, f₀) :: rest => by
    by_cases he : l' = l₀
    · subst he
      by_cases h : l = l' <;> simp [insertLabel, lookupLabel, h]
    · by_cases h : l = l₀
      · subst h
        have h2 : ¬ l = l' := fun hh => he hh.symm
        simp [insertLabel, he, lookupLabel, h2]
      · simp [insertLabel, he, lookupLabel, h, lookupLabel_insertLabel l l' f rest]

theorem preloadLabels_lookup (l : String) :
    ∀ (ts : List Tag) (cur : Nat) (acc : List (String × Nat)),
      lookupLabel l (preloadLabels ts cur acc) =
        optOr (lastLabelFrame l ts cur) (lookupLabel l acc) := by
  intro ts
  induction ts with
  | nil => intro cur acc; simp [preloadLabels, lastLabelFrame, optOr]
  | cons hd tl ih =>
    intro cur acc
    cases hd with
    | endTag => simp [preloadLabels, lastLabelFrame, optOr]
    | showFrame => simp [preloadLabels, lastLabelFrame, ih]
    | frameLabel l' =>
      simp only [preloadLabels, lastLabelFrame, ih, lookupLabel_insertLabel]
      cases hr : lastLabelFrame l tl cur with
      | some f => simp [optOr]
      | none =>
        by_cases h : l' = l
        · simp [optOr, h]
        · rw [if_neg (fun hh => h hh.symm)]
          simp [optOr, h]
    | placeObject po => simp [preloadLabels, lastLabelFrame, ih]
    | removeObject d => simp [preloadLabels, lastLabelFrame, ih]
    | doAction a => simp [preloadLabels, lastLabelFrame, ih]
    | startSound i ev => simp [preloadLabels, lastLabelFrame, ih]
    | soundStreamBlock => simp [preloadLabels, lastLabelFrame, ih]
    | setBackgroundColor c => simp [preloadLabels, lastLabelFrame, ih]
    | other => simp [preloadLabels, lastLabelFrame, ih]

/-! ## Claim C1 -/

/-- C1 counterexample: with the same label on frames 1 and 2, preload leaves
the binding of the **second** occurrence, so `frame_label_to_number` does not
return the first occurrence's frame. -/
theorem frame_label_first_wins_counterexample :
    frameLabelToNumber c1stream "a" = some 2 ∧
      frameLabelToNumber c1stream "a" ≠ some 1 := by
  constructor
  · rfl
  · decide

/-- C1 (amended): a duplicate frame label is logged, but `HashMap::insert`
replaces the binding, so the **last** occurrence wins:
`frame_label_to_number(label)` returns the frame of the last occurrence of
the label in the tag stream. -/
theorem frame_label_last_occurrence_wins (stream : List Tag) (l : String) :
    frameLabelToNumber stream l = lastLabelFrame l stream 1 := by
  unfold frameLabelToNumber
  rw [preloadLabels_lookup]
  simp [lookupLabel, optOr_none_right]

/-! ## Claim C3 -/

/-- C3 counterexample: a rewound `Place` with an absent background color
keeps it absent — `GotoPlaceObject::new` does not fill every optional field. -/
theorem rewind_place_defaults_counterexample :
    cpo3.action = PlaceAction.place 5 ∧ cpo3.backgroundColor = none ∧
      (GotoPlaceObject.new 1 cpo3 true).place_object.backgroundColor = none :=
  ⟨rfl, rfl, rfl⟩

/-- C3 (amended): constructing a `GotoPlaceObject` with the rewind flag true
for a `Place` action fills the absent fields among matrix, color transform,
ratio, name, clip depth and class name with their defaults; the background
color (and any other optional field) is left as it was. -/
theorem rewind_place_defaults (f : Nat) (po : PlaceObjectRec) (id : Nat)
    (h : po.action = PlaceAction.place id) :
    (GotoPlaceObject.new f po true).place_object.matrix = optOr po.matrix (some 0) ∧
    (GotoPlaceObject.new f po true).place_object.colorTransform =
      optOr po.colorTransform (some 0) ∧
    (GotoPlaceObject.new f po true).place_object.ratio = optOr po.ratio (some 0) ∧
    (GotoPlaceObject.new f po true).place_object.name = optOr po.name (some "") ∧
    (GotoPlaceObject.new f po true).place_object.clipDepth =
      optOr po.clipDepth (some 0) ∧
    (GotoPlaceObject.new f po true).place_object.className =
      optOr po.className (some "") ∧
    (GotoPlaceObject.new f po true).place_object.backgroundColor =
      po.backgroundColor ∧
    (GotoPlaceObject.new f po true).place_object.action = po.action ∧
    (GotoPlaceObject.new f po true).frame = f := by
  simp [GotoPlaceObject.new, h]

/-- C3 witness: the amended statement evaluated on the concrete record. -/
theorem rewind_place_defaults_witness :
    (GotoPlaceObject.new 1 cpo3 true).place_object.matrix =
      optOr cpo3.matrix (some 0) ∧
    (GotoPlaceObject.new 1 cpo3 true).place_object.backgroundColor =
      cpo3.backgroundColor :=
  ⟨(rewind_place_defaults 1 cpo3 5 rfl).1,
   (rewind_place_defaults 1 cpo3 5 rfl).2.2.2.2.2.2.1⟩

/-! ## Claim C5 -/

/-- C5: merging a newer `GotoPlaceObject` into an older one at the same depth
keeps the old action and frame when the newer action is `Modify`, otherwise
takes the newer action and frame; each optional property takes the newer
value when present and the older one otherwise. -/
theorem goto_place_merge_correct (cur next : GotoPlaceObject) :
    (next.place_object.action = PlaceAction.modify →
      (GotoPlaceObject.merge cur next).place_object.action = cur.place_object.action ∧
      (GotoPlaceObject.merge cur next).frame = cur.frame) ∧
    (next.place_object.action ≠ PlaceAction.modify →
      (GotoPlaceObject.merge cur next).place_object.action = next.place_object.action ∧
      (GotoPlaceObject.merge cur next).frame = next.frame) ∧
    (GotoPlaceObject.merge cur next).place_object.matrix =
      optOr next.place_object.matrix cur.place_object.matrix ∧
    (GotoPlaceObject.merge cur next).place_object.colorTransform =
      optOr next.place_object.colorTransform cur.place_object.colorTransform ∧
    (GotoPlaceObject.merge cur next).place_object.ratio =
      optOr next.place_object.ratio cur.place_object.ratio ∧
    (GotoPlaceObject.merge cur next).place_object.name =
      optOr next.place_object.name cur.place_object.name ∧
    (GotoPlaceObject.merge cur next).place_object.clipDepth =
      optOr next.place_object.clipDepth cur.place_object.clipDepth ∧
    (GotoPlaceObject.merge cur next).place_object.className =
      optOr next.place_object.className cur.place_object.className ∧
    (GotoPlaceObject.merge cur next).place_object.backgroundColor =
      optOr next.place_object.backgroundColor cur.place_object.backgroundColor := by
  cases hn : next.place_object.action <;>
    simp [GotoPlaceObject.merge, hn]

/-- C5 witness: the merge law applied to the concrete pair `g5old`, `g5new`. -/
theorem goto_place_merge_correct_witness :
    (GotoPlaceObject.merge g5old g5new).place_object.action =
      g5new.place_object.action ∧
    (GotoPlaceObject.merge g5old g5new).frame = g5new.frame ∧
    (GotoPlaceObject.merge g5old g5new).place_object.matrix =
      optOr g5new.place_object.matrix g5old.place_object.matrix :=
  ⟨((goto_place_merge_correct g5old g5new).2.1 (by decide)).1,
   ((goto_place_merge_correct g5old g5new).2.1 (by decide)).2,
   (goto_place_merge_correct g5old g5new).2.2.1⟩

/-! ## Preservation lemmas for the run-frame machinery -/

theorem instantiateChild_proj (s : St) (id depth : Nat) (po : PlaceObjectRec)
    (cp : Bool) :
    (instantiateChild s id depth po cp).1.currentFrame = s.currentFrame ∧
    (instantiateChild s id depth po cp).1.playing = s.playing ∧
    (instantiateChild s id depth po cp).1.audioStream = s.audioStream ∧
    (instantiateChild s id depth po cp).1.tagStreamPos = s.tagStreamPos := by
  unfold instantiateChild
  split <;> exact ⟨rfl, rfl, rfl, rfl⟩

theorem instantiateChild_unloaded_mono (s : St) (id depth : Nat)
    (po : PlaceObjectRec) (cp : Bool) (u : Nat) (h : u ∈ s.unloaded) :
    u ∈ (instantiateChild s id depth po cp).1.unloaded := by
  unfold instantiateChild
  split
  · exact h
  · cases hl : lookupA depth s.children <;> simp [hl, h]

theorem startSound1_proj (env : Env) (s : St) (id : Nat) (ev : SoundEvent) :
    (startSound1 env s id ev).currentFrame = s.currentFrame ∧
    (startSound1 env s id ev).playing = s.playing ∧
    (startSound1 env s id ev).audioStream = s.audioStream ∧
    (startSound1 env s id ev).children = s.children ∧
    (startSound1 env s id ev).tagStreamPos = s.tagStreamPos ∧
    (startSound1 env s id ev).unloaded = s.unloaded := by
  cases h : env.sounds id
  · simp [startSound1, h]
  · cases ev
    · simp [startSound1, h]
    · simp only [startSound1, h]
      split <;> simp
    · simp [startSound1, h]

theorem soundStreamBlockTag_proj (env : Env) (s : St) :
    (soundStreamBlockTag env s).currentFrame = s.currentFrame ∧
    (soundStreamBlockTag env s).playing = s.playing ∧
    (soundStreamBlockTag env s).children = s.children ∧
    (soundStreamBlockTag env s).tagStreamPos = s.tagStreamPos ∧
    (soundStreamBlockTag env s).unloaded = s.unloaded := by
  unfold soundStreamBlockTag
  split
  · split <;> exact ⟨rfl, rfl, rfl, rfl, rfl⟩
  · exact ⟨rfl, rfl, rfl, rfl, rfl⟩

theorem runFrameTag_proj (env : Env) (rda : Bool) (a : St × Bool) (t : Tag) :
    (runFrameTag env rda a t).1.currentFrame = a.1.currentFrame ∧
    (runFrameTag env rda a t).1.playing = a.1.playing ∧
    (runFrameTag env rda a t).1.tagStreamPos = a.1.tagStreamPos := by
  obtain ⟨s, b⟩ := a
  cases t with
  | placeObject po =>
    by_cases hr : rda
    · cases hpa : po.action with
      | place id =>
        simpa [runFrameTag, hr, hpa] using
          ⟨(instantiateChild_proj s id po.depth po false).1,
           (instantiateChild_proj s id po.depth po false).2.1,
           (instantiateChild_proj s id po.depth po false).2.2.2⟩
      | replace id =>
        simpa [runFrameTag, hr, hpa] using
          ⟨(instantiateChild_proj s id po.depth po true).1,
           (instantiateChild_proj s id po.depth po true).2.1,
           (instantiateChild_proj s id po.depth po true).2.2.2⟩
      | modify =>
        cases hl : lookupA po.depth s.children <;> simp [runFrameTag, hr, hpa, hl]
    · simp [runFrameTag, hr]
  | removeObject d =>
    by_cases hr : rda
    · cases hl : lookupA d s.children <;> simp [runFrameTag, hr, hl]
    · simp [runFrameTag, hr]
  | startSound id ev =>
    simpa [runFrameTag] using
      ⟨(startSound1_proj env s id ev).1, (startSound1_proj env s id ev).2.1,
       (startSound1_proj env s id ev).2.2.2.2.1⟩
  | soundStreamBlock =>
    simpa [runFrameTag] using
      ⟨(soundStreamBlockTag_proj env s).1, (soundStreamBlockTag_proj env s).2.1,
       (soundStreamBlockTag_proj env s).2.2.2.1⟩
  | doAction c => simp [runFrameTag]
  | setBackgroundColor c => simp [runFrameTag]
  | frameLabel l => simp [runFrameTag]
  | showFrame => simp [runFrameTag]
  | endTag => simp [runFrameTag]
  | other => simp [runFrameTag]

theorem foldl_rft_proj (env : Env) (rda : Bool) (ts : List Tag) :
    ∀ a : St × Bool,
      (ts.foldl (runFrameTag env rda) a).1.currentFrame = a.1.currentFrame ∧
      (ts.foldl (runFrameTag env rda) a).1.playing = a.1.playing ∧
      (ts.foldl (runFrameTag env rda) a).1.tagStreamPos = a.1.tagStreamPos := by
  induction ts with
  | nil => intro a; exact ⟨rfl, rfl, rfl⟩
  | cons hd tl ih =>
    intro a
    have h1 := runFrameTag_proj env rda a hd
    have h2 := ih (runFrameTag env rda a hd)
    exact ⟨h2.1.trans h1.1, h2.2.1.trans h1.2.1, h2.2.2.trans h1.2.2⟩

theorem runFrameCore_cur_play (env : Env) (rda : Bool) (s : St) :
    (runFrameCore env rda s).currentFrame = s.currentFrame ∧
    (runFrameCore env rda s).playing = s.playing := by
  have h := foldl_rft_proj env rda (splitFrame (env.stream.drop s.tagStreamPos)).1
    (s, false)
  constructor <;>
    (simp only [runFrameCore]
     simp only [h.1, h.2.1]
     split <;> rfl)

theorem stopClip_proj (s : St) :
    (stopClip s).currentFrame = s.currentFrame ∧
    (stopClip s).playing = false ∧
    (stopClip s).children = s.children ∧
    (stopClip s).tagStreamPos = s.tagStreamPos ∧
    (stopClip s).unloaded = s.unloaded := by
  unfold stopClip
  cases h : s.audioStream <;> simp [h]

theorem playClip_proj (env : Env) (s : St) :
    (playClip env s).currentFrame = s.currentFrame ∧
    (playClip env s).children = s.children ∧
    (playClip env s).tagStreamPos = s.tagStreamPos ∧
    (playClip env s).unloaded = s.unloaded := by
  unfold playClip
  split <;> simp

/-- The unfolding equation of `runFrameInternalF` at positive fuel. -/
theorem runFrameInternalF_succ (env : Env) (fuel : Nat) (rda : Bool) (s : St) :
    runFrameInternalF env (fuel + 1) rda s =
      if s.currentFrame < env.totalFrames then
        runFrameCore env rda { s with currentFrame := s.currentFrame + 1 }
      else if 1 < env.totalFrames then
        gotoPost (decide (1 < s.currentFrame)) 1
          (gotoPre env (decide (1 < s.currentFrame)) 1 s).2
          (runFrameInternalF env fuel false
            (gotoPre env (decide (1 < s.currentFrame)) 1 s).1)
      else
        runFrameCore env rda (stopClip s) := rfl

/-! ## Claim C2 -/

/-- C2 counterexample: on `env2` (a single-frame clip that has already run
its frame, with a trailing DoAction after the ShowFrame sentinel) the
run-frame advance stops the clip but does **not** return: it decodes the
trailing tag, enqueuing its action and advancing the stream position. -/
theorem run_frame_single_frame_counterexample :
    st2.queuedActions = [] ∧
    (runFrameInternal env2 true st2).playing = false ∧
    (runFrameInternal env2 true st2).currentFrame = 1 ∧
    (runFrameInternal env2 true st2).queuedActions = [7] ∧
    (runFrameInternal env2 true st2).tagStreamPos = 2 :=
  ⟨rfl, rfl, rfl, rfl, rfl⟩

/-- C2 (amended): a run-frame advance splits three ways on entry: increment
and decode when below the last frame; goto frame 1 and return when looping;
otherwise (single-frame clip) the clip stops — playing becomes false and the
frame number is left unchanged — but it does **not** return: it still
decodes the tags at the current position exactly as `runFrameCore` does. -/
theorem run_frame_advance_cases (env : Env) (rda : Bool) (s : St) :
    (s.currentFrame < env.totalFrames →
      runFrameInternal env rda s =
        runFrameCore env rda { s with currentFrame := s.currentFrame + 1 }) ∧
    (¬ s.currentFrame < env.totalFrames → 1 < env.totalFrames →
      runFrameInternal env rda s = runGotoF env 3 1 s) ∧
    (¬ s.currentFrame < env.totalFrames → ¬ 1 < env.totalFrames →
      runFrameInternal env rda s = runFrameCore env rda (stopClip s) ∧
      (runFrameInternal env rda s).playing = false ∧
      (runFrameInternal env rda s).currentFrame = s.currentFrame) := by
  refine ⟨?_, ?_, ?_⟩
  · intro h
    unfold runFrameInternal
    rw [runFrameInternalF_succ, if_pos h]
  · intro h1 h2
    unfold runFrameInternal
    rw [runFrameInternalF_succ, if_neg h1, if_pos h2]
    rfl
  · intro h1 h2
    have he : runFrameInternal env rda s = runFrameCore env rda (stopClip s) := by
      unfold runFrameInternal
      rw [runFrameInternalF_succ, if_neg h1, if_neg h2]
    refine ⟨he, ?_, ?_⟩
    · rw [he, (runFrameCore_cur_play env rda (stopClip s)).2, (stopClip_proj s).2.1]
    · rw [he, (runFrameCore_cur_play env rda (stopClip s)).1, (stopClip_proj s).1]

/-- C2 witness: the amended third branch evaluated on the single-frame clip. -/
theorem run_frame_advance_cases_witness :
    runFrameInternal env2 true st2 = runFrameCore env2 true (stopClip st2) ∧
    (runFrameInternal env2 true st2).playing = false :=
  ⟨((run_frame_advance_cases env2 true st2).2.2 (by decide) (by decide)).1,
   ((run_frame_advance_cases env2 true st2).2.2 (by decide) (by decide)).2.1⟩

/-! ## Claim C9 -/

/-- C9: `next_frame` at the last frame and `prev_frame` at or before frame 1
are no-ops leaving the whole state unchanged; otherwise each is exactly a
stop-then-seek `goto_frame` to the adjacent frame. -/
theorem next_prev_frame_boundary (env : Env) (s : St) :
    (s.currentFrame = env.totalFrames → nextFrame env s = s) ∧
    (s.currentFrame ≤ 1 → prevFrame env s = s) ∧
    (s.currentFrame < env.totalFrames →
      nextFrame env s = gotoFrame env true (s.currentFrame + 1) s) ∧
    (1 < s.currentFrame →
      prevFrame env s = gotoFrame env true (s.currentFrame - 1) s) := by
  refine ⟨?_, ?_, ?_, ?_⟩
  · intro h
    unfold nextFrame
    rw [if_neg (by omega)]
  · intro h
    unfold prevFrame
    rw [if_neg (by omega)]
  · intro h
    unfold nextFrame
    rw [if_pos h]
  · intro h
    unfold prevFrame
    rw [if_pos h]

/-- C9 witness: on the single-frame clip already at its last frame, both
boundary no-ops evaluated concretely. -/
theorem next_prev_frame_boundary_witness :
    nextFrame env2 st2 = st2 ∧ prevFrame env2 st2 = st2 :=
  ⟨(next_prev_frame_boundary env2 st2).1 rfl,
   (next_prev_frame_boundary env2 st2).2.1 (by decide)⟩

/-! ## Claim C7 -/

theorem count_filter_ne (h : Nat) (l : List Nat) :
    (l.filter (fun x => x ≠ h)).count h = 0 := by
  rw [List.count_eq_zero]
  intro hm
  have := (List.mem_filter.mp hm).2
  simp at this

/-- C7: for a StartSound tag whose id resolves to handle `h`, the `Event`
kind always starts a new instance; the `Start` kind is a no-op while an
instance of `h` is playing and starts one otherwise; the `Stop` kind stops
every instance of `h` and starts nothing. -/
theorem start_sound_semantics (env : Env) (s : St) (id h : Nat)
    (hs : env.sounds id = some h) :
    ((startSound1 env s id SoundEvent.event).playingSounds.count h =
      s.playingSounds.count h + 1) ∧
    (h ∈ s.playingSounds → startSound1 env s id SoundEvent.start = s) ∧
    (h ∉ s.playingSounds →
      (startSound1 env s id SoundEvent.start).playingSounds.count h =
        s.playingSounds.count h + 1) ∧
    ((startSound1 env s id SoundEvent.stop).playingSounds.count h = 0 ∧
      (startSound1 env s id SoundEvent.stop).startedSounds = s.startedSounds) := by
  refine ⟨?_, ?_, ?_, ?_, ?_⟩
  · simp [startSound1, hs, List.count_cons_self]
  · intro hm
    simp [startSound1, hs, hm]
  · intro hm
    simp [startSound1, hs, hm, List.count_cons_self]
  · simp only [startSound1, hs]
    exact count_filter_ne h s.playingSounds
  · simp [startSound1, hs]

/-- C7 witness: the sound semantics evaluated on `env7`, whose library
resolves sound id 3 to handle 9. -/
theorem start_sound_semantics_witness :
    (startSound1 env7 st0 3 SoundEvent.event).playingSounds.count 9 =
      st0.playingSounds.count 9 + 1 ∧
    (startSound1 env7 st0 3 SoundEvent.stop).playingSounds.count 9 = 0 :=
  ⟨(start_sound_semantics env7 st0 3 9 rfl).1,
   (start_sound_semantics env7 st0 3 9 rfl).2.2.2.1⟩

/-! ## Claim C8 -/

theorem runFrameTag_snd (env : Env) (rda : Bool) (a : St × Bool) (t : Tag) :
    (runFrameTag env rda a t).2 = (a.2 || isBlock t) := by
  obtain ⟨s, b⟩ := a
  cases t with
  | placeObject po =>
    by_cases hr : rda
    · cases hpa : po.action with
      | place id => simp [runFrameTag, hr, hpa, isBlock]
      | replace id => simp [runFrameTag, hr, hpa, isBlock]
      | modify =>
        cases hl : lookupA po.depth s.children <;>
          simp [runFrameTag, hr, hpa, hl, isBlock]
    · simp [runFrameTag, hr, isBlock]
  | removeObject d =>
    by_cases hr : rda
    · cases hl : lookupA d s.children <;> simp [runFrameTag, hr, hl, isBlock]
    · simp [runFrameTag, hr, isBlock]
  | startSound id ev => simp [runFrameTag, isBlock]
  | soundStreamBlock => simp [runFrameTag, isBlock]
  | doAction c => simp [runFrameTag, isBlock]
  | setBackgroundColor c => simp [runFrameTag, isBlock]
  | frameLabel l => simp [runFrameTag, isBlock]
  | showFrame => simp [runFrameTag, isBlock]
  | endTag => simp [runFrameTag, isBlock]
  | other => simp [runFrameTag, isBlock]

theorem foldl_rft_snd (env : Env) (rda : Bool) (ts : List Tag) :
    ∀ a : St × Bool,
      (ts.foldl (runFrameTag env rda) a).2 = (a.2 || ts.any isBlock) := by
  induction ts with
  | nil => intro a; simp
  | cons hd tl ih =>
    intro a
    rw [List.foldl_cons, ih, runFrameTag_snd]
    simp [List.any_cons, Bool.or_assoc]

theorem runFrameTag_audio_noBlock (env : Env) (rda : Bool) (a : St × Bool)
    (t : Tag) (hb : isBlock t = false) :
    (runFrameTag env rda a t).1.audioStream = a.1.audioStream := by
  obtain ⟨s, b⟩ := a
  cases t with
  | placeObject po =>
    by_cases hr : rda
    · cases hpa : po.action with
      | place id =>
        simpa [runFrameTag, hr, hpa] using
          (instantiateChild_proj s id po.depth po false).2.2.1
      | replace id =>
        simpa [runFrameTag, hr, hpa] using
          (instantiateChild_proj s id po.depth po true).2.2.1
      | modify =>
        cases hl : lookupA po.depth s.children <;> simp [runFrameTag, hr, hpa, hl]
    · simp [runFrameTag, hr]
  | removeObject d =>
    by_cases hr : rda
    · cases hl : lookupA d s.children <;> simp [runFrameTag, hr, hl]
    · simp [runFrameTag, hr]
  | startSound id ev =>
    simpa [runFrameTag] using (startSound1_proj env s id ev).2.2.1
  | soundStreamBlock => simp [isBlock] at hb
  | doAction c => simp [runFrameTag]
  | setBackgroundColor c => simp [runFrameTag]
  | frameLabel l => simp [runFrameTag]
  | showFrame => simp [runFrameTag]
  | endTag => simp [runFrameTag]
  | other => simp [runFrameTag]

theorem foldl_rft_audio_noBlock (env : Env) (rda : Bool) (ts : List Tag)
    (hnb : ts.any isBlock = false) :
    ∀ a : St × Bool,
      (ts.foldl (runFrameTag env rda) a).1.audioStream = a.1.audioStream := by
  induction ts with
  | nil => intro a; rfl
  | cons hd tl ih =>
    intro a
    simp only [List.any_cons, Bool.or_eq_false_iff] at hnb
    rw [List.foldl_cons, ih hnb.2, runFrameTag_audio_noBlock env rda a hd hnb.1]

theorem runFrameCore_audio (env : Env) (rda : Bool) (s : St)
    (hnb : (splitFrame (env.stream.drop s.tagStreamPos)).1.any isBlock = false) :
    (runFrameCore env rda s).audioStream = none ∧
    (∀ h, s.audioStream = some h →
      h ∈ (runFrameCore env rda s).stoppedStreams) := by
  have hflag : ((splitFrame (env.stream.drop s.tagStreamPos)).1.foldl
      (runFrameTag env rda) (s, false)).2 = false := by
    rw [foldl_rft_snd]
    simp [hnb]
  have haud : ((splitFrame (env.stream.drop s.tagStreamPos)).1.foldl
      (runFrameTag env rda) (s, false)).1.audioStream = s.audioStream :=
    foldl_rft_audio_noBlock env rda _ hnb (s, false)
  simp only [runFrameCore]
  rw [haud, hflag]
  cases ha : s.audioStream with
  | none =>
    exact ⟨rfl, fun h hc => nomatch hc⟩
  | some h0 =>
    refine ⟨rfl, ?_⟩
    intro h' hc
    cases hc
    exact List.mem_cons_self _ _

/-- C8: if the frame decoded by a run-frame advance carries no
SoundStreamBlock tag, the active audio stream (if any) is stopped through
the backend and the handle is cleared; consequently the handle is `Some`
after the advance only if the decoded frame carried a stream block. -/
theorem stream_stops_without_block (env : Env) (rda : Bool) (s : St) :
    ((splitFrame (env.stream.drop s.tagStreamPos)).1.any isBlock = false →
      (runFrameCore env rda s).audioStream = none ∧
      (∀ h, s.audioStream = some h →
        h ∈ (runFrameCore env rda s).stoppedStreams)) ∧
    ((runFrameCore env rda s).audioStream.isSome = true →
      (splitFrame (env.stream.drop s.tagStreamPos)).1.any isBlock = true) := by
  constructor
  · exact runFrameCore_audio env rda s
  · intro hsome
    by_cases hb : (splitFrame (env.stream.drop s.tagStreamPos)).1.any isBlock = true
    · exact hb
    · exfalso
      have hnb : (splitFrame (env.stream.drop s.tagStreamPos)).1.any isBlock = false := by
        simpa using hb
      rw [(runFrameCore_audio env rda s hnb).1] at hsome
      simp at hsome

/-- C8 witness: on `env8`'s block-free frame, the active stream handle 5 is
stopped and cleared. -/
theorem stream_stops_without_block_witness :
    (runFrameCore env8 true st8).audioStream = none ∧
    5 ∈ (runFrameCore env8 true st8).stoppedStreams :=
  ⟨((stream_stops_without_block env8 true st8).1 (by decide)).1,
   ((stream_stops_without_block env8 true st8).1 (by decide)).2 5 rfl⟩

/-! ## Goto preservation lemmas -/

theorem gotoInstantiate_proj (s : St) (d : Nat) (params : GotoPlaceObject) :
    (gotoInstantiate s d params).currentFrame = s.currentFrame ∧
    (gotoInstantiate s d params).playing = s.playing ∧
    (gotoInstantiate s d params).tagStreamPos = s.tagStreamPos ∧
    (gotoInstantiate s d params).audioStream = s.audioStream := by
  have hp := instantiateChild_proj s params.id d params.place_object
    params.modifiesOriginalItem
  refine ⟨?_, ?_, ?_, ?_⟩ <;>
    (simp only [gotoInstantiate]
     split <;>
       first
       | exact hp.1
       | exact hp.2.1
       | exact hp.2.2.2
       | exact hp.2.2.1)

theorem runGotoCommand_proj (ir : Bool) (s : St) (cmd : Nat × GotoPlaceObject) :
    (runGotoCommand ir s cmd).currentFrame = s.currentFrame ∧
    (runGotoCommand ir s cmd).playing = s.playing ∧
    (runGotoCommand ir s cmd).tagStreamPos = s.tagStreamPos ∧
    (runGotoCommand ir s cmd).audioStream = s.audioStream := by
  unfold runGotoCommand
  cases hl : lookupA cmd.1 s.children with
  | none => exact gotoInstantiate_proj s cmd.1 cmd.2
  | some prev =>
    dsimp only
    by_cases hc : (decide (cmd.2.id = 0) || ir) = true
    · rw [if_pos hc]
      exact ⟨rfl, rfl, rfl, rfl⟩
    · rw [if_neg hc]
      exact gotoInstantiate_proj s cmd.1 cmd.2

theorem foldl_rgc_proj (ir : Bool) (cmds : List (Nat × GotoPlaceObject)) :
    ∀ s : St,
      (cmds.foldl (runGotoCommand ir) s).currentFrame = s.currentFrame ∧
      (cmds.foldl (runGotoCommand ir) s).playing = s.playing ∧
      (cmds.foldl (runGotoCommand ir) s).tagStreamPos = s.tagStreamPos ∧
      (cmds.foldl (runGotoCommand ir) s).audioStream = s.audioStream := by
  induction cmds with
  | nil => intro s; exact ⟨rfl, rfl, rfl, rfl⟩
  | cons hd tl ih =>
    intro s
    have h1 := runGotoCommand_proj ir s hd
    have h2 := ih (runGotoCommand ir s hd)
    exact ⟨h2.1.trans h1.1, h2.2.1.trans h1.2.1, h2.2.2.1.trans h1.2.2.1,
      h2.2.2.2.trans h1.2.2.2⟩

theorem gotoPost_proj (ir : Bool) (frame : Nat) (cmds : List (Nat × GotoPlaceObject))
    (s : St) :
    (gotoPost ir frame cmds s).currentFrame = s.currentFrame ∧
    (gotoPost ir frame cmds s).playing = s.playing := by
  have h := foldl_rgc_proj ir (cmds.filter (fun p => decide (frame ≤ p.2.frame))) s
  exact ⟨h.1, h.2.1⟩

theorem gotoPre_cur (env : Env) (ir : Bool) (frame : Nat) (s : St) :
    (gotoPre env ir frame s).1.currentFrame = frame - 1 := rfl

/-- The current frame after a goto is the (in-range) target frame. -/
theorem runGotoF_cur (env : Env) (fuel : Nat) (frame : Nat) (s : St)
    (h1 : 1 ≤ frame) (h2 : frame ≤ env.totalFrames) :
    (runGotoF env (fuel + 1) frame s).currentFrame = frame := by
  have hlt : (gotoPre env (decide (frame < s.currentFrame)) frame s).1.currentFrame <
      env.totalFrames := by
    rw [gotoPre_cur]
    omega
  simp only [runGotoF]
  rw [runFrameInternalF_succ, if_pos hlt, (gotoPost_proj _ _ _ _).1,
    (runFrameCore_cur_play _ _ _).1]
  show (gotoPre env _ frame s).1.currentFrame + 1 = frame
  rw [gotoPre_cur]
  omega

theorem clampF_eq (env : Env) (n : Nat) (h1 : 1 ≤ n) (h2 : n ≤ env.totalFrames) :
    clampF env n = n := by
  unfold clampF
  rw [if_neg (by omega), if_neg (by omega)]

theorem gotoFrameAux_cur (env : Env) (n : Nat) (s : St)
    (h1 : 1 ≤ n) (h2 : n ≤ env.totalFrames) :
    (gotoFrameAux env n s).currentFrame = n := by
  unfold gotoFrameAux
  rw [clampF_eq env n h1 h2]
  by_cases hc : n ≠ s.currentFrame
  · rw [if_pos hc]
    exact runGotoF_cur env 3 n s h1 h2
  · rw [if_neg hc]
    exact (not_ne_iff.mp hc).symm

theorem gotoFrameAux_skip (env : Env) (n : Nat) (s : St)
    (h : s.currentFrame = n) (h1 : 1 ≤ n) (h2 : n ≤ env.totalFrames) :
    gotoFrameAux env n s = s := by
  unfold gotoFrameAux
  rw [clampF_eq env n h1 h2, if_neg (fun hn => hn h.symm)]

theorem gotoFrame_cur (env : Env) (b : Bool) (n : Nat) (s : St)
    (h1 : 1 ≤ n) (h2 : n ≤ env.totalFrames) :
    (gotoFrame env b n s).currentFrame = n := by
  cases b with
  | true => exact gotoFrameAux_cur env n (stopClip s) h1 h2
  | false => exact gotoFrameAux_cur env n (playClip env s) h1 h2

/-! ## Claim C6 -/

/-- C6: a goto to an in-range frame is idempotent on the display-list state:
repeating `goto(n)` changes neither the depth-to-child mapping, the current
frame, nor the saved tag-stream position, because the second goto arrives
with `current_frame = n` and performs no seek. -/
theorem goto_idempotent (env : Env) (b : Bool) (n : Nat) (s : St)
    (h1 : 1 ≤ n) (h2 : n ≤ env.totalFrames) :
    displayState (gotoFrame env b n (gotoFrame env b n s)) =
      displayState (gotoFrame env b n s) := by
  have hcur : (gotoFrame env b n s).currentFrame = n := gotoFrame_cur env b n s h1 h2
  cases b with
  | true =>
    have hskip : gotoFrame env true n (gotoFrame env true n s) =
        stopClip (gotoFrame env true n s) :=
      gotoFrameAux_skip env n (stopClip (gotoFrame env true n s))
        ((stopClip_proj (gotoFrame env true n s)).1.trans hcur) h1 h2
    have hp := stopClip_proj (gotoFrame env true n s)
    rw [hskip]
    simp [displayState, hp.1, hp.2.2.1, hp.2.2.2.1]
  | false =>
    have hskip : gotoFrame env false n (gotoFrame env false n s) =
        playClip env (gotoFrame env false n s) :=
      gotoFrameAux_skip env n (playClip env (gotoFrame env false n s))
        ((playClip_proj env (gotoFrame env false n s)).1.trans hcur) h1 h2
    have hp := playClip_proj env (gotoFrame env false n s)
    rw [hskip]
    simp [displayState, hp.1, hp.2.1, hp.2.2.1]

/-- C6 witness: goto idempotence evaluated on `env5` at target frame 2. -/
theorem goto_idempotent_witness :
    displayState (gotoFrame env5 true 2 (gotoFrame env5 true 2 st5)) =
      displayState (gotoFrame env5 true 2 st5) :=
  goto_idempotent env5 true 2 st5 (by decide) (by decide)

/-! ## Rewind lemmas (claims C4 and C10) -/

theorem gotoInstantiate_lookup_ne (s : St) (d₀ : Nat) (params : GotoPlaceObject)
    (d : Nat) (hd : d ≠ d₀) :
    lookupA d (gotoInstantiate s d₀ params).children = lookupA d s.children := by
  unfold gotoInstantiate instantiateChild
  by_cases hid : params.id = 0
  · simp [hid]
  · simp only [hid, if_false, ite_false]
    rw [lookupA_insertA_ne d d₀ _ hd, lookupA_insertA_ne d d₀ _ hd]

theorem runGotoCommand_rewind_keep (s : St) (cmd : Nat × GotoPlaceObject)
    (d : Nat) (c : Child) (h : lookupA d s.children = some c) :
    ∃ c', lookupA d (runGotoCommand true s cmd).children = some c' ∧
      c'.instId = c.instId := by
  unfold runGotoCommand
  by_cases hd : d = cmd.1
  · subst hd
    rw [h]
    dsimp only
    rw [if_pos (by simp)]
    exact ⟨applyPlaceObject c cmd.2.place_object,
      lookupA_insertA_self cmd.1 _ s.children, rfl⟩
  · cases hl : lookupA cmd.1 s.children with
    | none => exact ⟨c, by rw [gotoInstantiate_lookup_ne s cmd.1 cmd.2 d hd]; exact h, rfl⟩
    | some prev =>
      dsimp only
      rw [if_pos (by simp)]
      exact ⟨c, by rw [lookupA_insertA_ne d cmd.1 _ hd]; exact h, rfl⟩

theorem foldl_rgc_rewind_keep (cmds : List (Nat × GotoPlaceObject)) :
    ∀ (s : St) (d : Nat) (c : Child), lookupA d s.children = some c →
      ∃ c', lookupA d (cmds.foldl (runGotoCommand true) s).children = some c' ∧
        c'.instId = c.instId := by
  induction cmds with
  | nil => intro s d c h; exact ⟨c, h, rfl⟩
  | cons hd tl ih =>
    intro s d c h
    obtain ⟨c₁, h₁, hid₁⟩ := runGotoCommand_rewind_keep s hd d c h
    obtain ⟨c₂, h₂, hid₂⟩ := ih (runGotoCommand true s hd) d c₁ h₁
    exact ⟨c₂, h₂, hid₂.trans hid₁⟩

theorem gotoAggFrame_state_rewind (a : St × List (Nat × GotoPlaceObject)) (t : Tag) :
    (gotoAggFrame true a t).1 = a.1 := by
  obtain ⟨s, cmds⟩ := a
  cases t <;> simp [gotoAggFrame]

theorem foldl_agg_state_rewind (ts : List Tag) :
    ∀ a, (ts.foldl (gotoAggFrame true) a).1 = a.1 := by
  induction ts with
  | nil => intro a; rfl
  | cons hd tl ih =>
    intro a
    rw [List.foldl_cons, ih, gotoAggFrame_state_rewind]

/-- One unrolling of the goto aggregation loop. -/
theorem gotoLoop_succ (env : Env) (ir : Bool) (k : Nat) (s : St)
    (cmds : List (Nat × GotoPlaceObject)) (fp : Nat) :
    gotoLoop env ir (k + 1) s cmds fp =
      gotoLoop env ir k
        { ((splitFrame (env.stream.drop s.tagStreamPos)).1.foldl (gotoAggFrame ir)
            ({ s with currentFrame := s.currentFrame + 1 }, cmds)).1 with
          tagStreamPos := s.tagStreamPos + (splitFrame (env.stream.drop s.tagStreamPos)).2 }
        ((splitFrame (env.stream.drop s.tagStreamPos)).1.foldl (gotoAggFrame ir)
          ({ s with currentFrame := s.currentFrame + 1 }, cmds)).2
        s.tagStreamPos := rfl

theorem gotoLoop_state_rewind (env : Env) :
    ∀ (n : Nat) (s : St) (cmds : List (Nat × GotoPlaceObject)) (fp : Nat),
      (gotoLoop env true n s cmds fp).1.children = s.children ∧
      (gotoLoop env true n s cmds fp).1.unloaded = s.unloaded := by
  intro n
  induction n with
  | zero => intro s cmds fp; exact ⟨rfl, rfl⟩
  | succ k ih =>
    intro s cmds fp
    rw [gotoLoop_succ]
    have h2 := foldl_agg_state_rewind (splitFrame (env.stream.drop s.tagStreamPos)).1
      ({ s with currentFrame := s.currentFrame + 1 }, cmds)
    constructor
    · rw [(ih _ _ _).1]
      show ((splitFrame (env.stream.drop s.tagStreamPos)).1.foldl (gotoAggFrame true)
        ({ s with currentFrame := s.currentFrame + 1 }, cmds)).1.children = s.children
      rw [h2]
    · rw [(ih _ _ _).2]
      show ((splitFrame (env.stream.drop s.tagStreamPos)).1.foldl (gotoAggFrame true)
        ({ s with currentFrame := s.currentFrame + 1 }, cmds)).1.unloaded = s.unloaded
      rw [h2]

theorem runFrameTag_children_noDisplay (env : Env) (a : St × Bool) (t : Tag) :
    (runFrameTag env false a t).1.children = a.1.children := by
  obtain ⟨s, b⟩ := a
  cases t with
  | startSound id ev =>
    simpa [runFrameTag] using (startSound1_proj env s id ev).2.2.2.1
  | soundStreamBlock =>
    simpa [runFrameTag] using (soundStreamBlockTag_proj env s).2.2.1
  | placeObject po => simp [runFrameTag]
  | removeObject d => simp [runFrameTag]
  | doAction c => simp [runFrameTag]
  | setBackgroundColor c => simp [runFrameTag]
  | frameLabel l => simp [runFrameTag]
  | showFrame => simp [runFrameTag]
  | endTag => simp [runFrameTag]
  | other => simp [runFrameTag]

theorem foldl_rft_children_noDisplay (env : Env) (ts : List Tag) :
    ∀ a, (ts.foldl (runFrameTag env false) a).1.children = a.1.children := by
  induction ts with
  | nil => intro a; rfl
  | cons hd tl ih =>
    intro a
    rw [List.foldl_cons, ih, runFrameTag_children_noDisplay]

theorem runFrameCore_children_noDisplay (env : Env) (s : St) :
    (runFrameCore env false s).children = s.children := by
  have h := foldl_rft_children_noDisplay env
    (splitFrame (env.stream.drop s.tagStreamPos)).1 (s, false)
  simp only [runFrameCore]
  simp only [h]
  split <;> rfl

theorem gotoPre_rewind_keep (env : Env) (n : Nat) (s : St) (d : Nat) (c : Child)
    (hl : lookupA d s.children = some c) (hpf : c.placeFrame ≤ n) :
    ∃ c', lookupA d (gotoPre env true n s).1.children = some c' ∧
      c'.instId = c.instId := by
  have hA : lookupA d (rewindPhaseA n s).children = some c :=
    lookupA_filter_keep d c _ s.children hl (by simp [hpf])
  have hloop := (gotoLoop_state_rewind env (n - (rewindPhaseA n s).currentFrame)
    (rewindPhaseA n s) [] (rewindPhaseA n s).tagStreamPos).1
  have hr1 : lookupA d (gotoLoop env true (n - (rewindPhaseA n s).currentFrame)
      (rewindPhaseA n s) [] (rewindPhaseA n s).tagStreamPos).1.children = some c := by
    rw [hloop]
    exact hA
  obtain ⟨c', h', hid⟩ := foldl_rgc_rewind_keep _ _ d c hr1
  exact ⟨c', h', hid⟩

theorem runFrameInternalF_pos (env : Env) (fuel : Nat) (rda : Bool) (s : St)
    (h : s.currentFrame < env.totalFrames) :
    runFrameInternalF env (fuel + 1) rda s =
      runFrameCore env rda { s with currentFrame := s.currentFrame + 1 } := by
  rw [runFrameInternalF_succ, if_pos h]

theorem runGotoF_rewind_keep (env : Env) (fuel : Nat) (n : Nat) (s : St)
    (d : Nat) (c : Child) (h1 : 1 ≤ n) (h2 : n ≤ env.totalFrames)
    (hr : n < s.currentFrame) (hl : lookupA d s.children = some c)
    (hpf : c.placeFrame ≤ n) :
    ∃ c', lookupA d (runGotoF env (fuel + 1) n s).children = some c' ∧
      c'.instId = c.instId := by
  have hir : decide (n < s.currentFrame) = true := decide_eq_true hr
  simp only [runGotoF, hir]
  obtain ⟨c₁, hc₁, hid₁⟩ := gotoPre_rewind_keep env n s d c hl hpf
  have hcur : (gotoPre env true n s).1.currentFrame < env.totalFrames := by
    rw [gotoPre_cur]
    omega
  rw [runFrameInternalF_pos env fuel false _ hcur]
  have hcore := runFrameCore_children_noDisplay env
    { (gotoPre env true n s).1 with
      currentFrame := (gotoPre env true n s).1.currentFrame + 1 }
  have hc₂ : lookupA d (runFrameCore env false
      { (gotoPre env true n s).1 with
        currentFrame := (gotoPre env true n s).1.currentFrame + 1 }).children =
      some c₁ := by
    rw [hcore]
    exact hc₁
  simp only [gotoPost]
  obtain ⟨c₃, hc₃, hid₃⟩ := foldl_rgc_rewind_keep _ _ d c₁ hc₂
  exact ⟨c₃, hc₃, hid₃.trans hid₁⟩

/-! ## Unload-propagation lemmas -/

theorem gotoInstantiate_unloaded_mono (s : St) (d : Nat) (params : GotoPlaceObject)
    (u : Nat) (h : u ∈ s.unloaded) :
    u ∈ (gotoInstantiate s d params).unloaded := by
  have hi := instantiateChild_unloaded_mono s params.id d params.place_object
    params.modifiesOriginalItem u h
  simp only [gotoInstantiate]
  split
  · exact hi
  · exact hi

theorem runGotoCommand_unloaded_mono (ir : Bool) (s : St)
    (cmd : Nat × GotoPlaceObject) (u : Nat) (h : u ∈ s.unloaded) :
    u ∈ (runGotoCommand ir s cmd).unloaded := by
  unfold runGotoCommand
  cases hl : lookupA cmd.1 s.children with
  | none => exact gotoInstantiate_unloaded_mono s cmd.1 cmd.2 u h
  | some prev =>
    dsimp only
    by_cases hc : (decide (cmd.2.id = 0) || ir) = true
    · rw [if_pos hc]
      exact h
    · rw [if_neg hc]
      exact gotoInstantiate_unloaded_mono s cmd.1 cmd.2 u h

theorem foldl_rgc_unloaded_mono (ir : Bool) (cmds : List (Nat × GotoPlaceObject)) :
    ∀ (s : St) (u : Nat), u ∈ s.unloaded →
      u ∈ (cmds.foldl (runGotoCommand ir) s).unloaded := by
  induction cmds with
  | nil => intro s u h; exact h
  | cons hd tl ih =>
    intro s u h
    exact ih (runGotoCommand ir s hd) u (runGotoCommand_unloaded_mono ir s hd u h)

theorem gotoPost_unloaded_mono (ir : Bool) (frame : Nat)
    (cmds : List (Nat × GotoPlaceObject)) (s : St) (u : Nat) (h : u ∈ s.unloaded) :
    u ∈ (gotoPost ir frame cmds s).unloaded := by
  simp only [gotoPost]
  exact foldl_rgc_unloaded_mono ir _ s u h

theorem gotoAggFrame_unloaded_mono (ir : Bool) (a : St × List (Nat × GotoPlaceObject))
    (t : Tag) (u : Nat) (h : u ∈ a.1.unloaded) :
    u ∈ (gotoAggFrame ir a t).1.unloaded := by
  obtain ⟨s, cmds⟩ := a
  cases t with
  | removeObject d =>
    cases ir with
    | true => simpa [gotoAggFrame] using h
    | false =>
      cases hl : lookupA d s.children <;> simp [gotoAggFrame, hl, h]
  | placeObject po => simpa [gotoAggFrame] using h
  | doAction c => exact h
  | startSound id ev => exact h
  | soundStreamBlock => exact h
  | setBackgroundColor c => exact h
  | frameLabel l => exact h
  | showFrame => exact h
  | endTag => exact h
  | other => exact h

theorem foldl_agg_unloaded_mono (ir : Bool) (ts : List Tag) :
    ∀ (a : St × List (Nat × GotoPlaceObject)) (u : Nat), u ∈ a.1.unloaded →
      u ∈ (ts.foldl (gotoAggFrame ir) a).1.unloaded := by
  induction ts with
  | nil => intro a u h; exact h
  | cons hd tl ih =>
    intro a u h
    exact ih (gotoAggFrame ir a hd) u (gotoAggFrame_unloaded_mono ir a hd u h)

theorem gotoLoop_unloaded_mono (env : Env) (ir : Bool) :
    ∀ (n : Nat) (s : St) (cmds : List (Nat × GotoPlaceObject)) (fp u : Nat),
      u ∈ s.unloaded → u ∈ (gotoLoop env ir n s cmds fp).1.unloaded := by
  intro n
  induction n with
  | zero => intro s cmds fp u h; exact h
  | succ k ih =>
    intro s cmds fp u h
    rw [gotoLoop_succ]
    apply ih
    exact foldl_agg_unloaded_mono ir _ _ u h

theorem runFrameTag_unloaded_mono (env : Env) (rda : Bool) (a : St × Bool)
    (t : Tag) (u : Nat) (h : u ∈ a.1.unloaded) :
    u ∈ (runFrameTag env rda a t).1.unloaded := by
  obtain ⟨s, b⟩ := a
  cases t with
  | placeObject po =>
    by_cases hr : rda
    · cases hpa : po.action with
      | place id =>
        simpa [runFrameTag, hr, hpa] using
          instantiateChild_unloaded_mono s id po.depth po false u h
      | replace id =>
        simpa [runFrameTag, hr, hpa] using
          instantiateChild_unloaded_mono s id po.depth po true u h
      | modify =>
        cases hl : lookupA po.depth s.children <;> simp [runFrameTag, hr, hpa, hl, h]
    · simpa [runFrameTag, hr] using h
  | removeObject d =>
    by_cases hr : rda
    · cases hl : lookupA d s.children <;> simp [runFrameTag, hr, hl, h]
    · simpa [runFrameTag, hr] using h
  | startSound id ev =>
    have := (startSound1_proj env s id ev).2.2.2.2.2
    simp only [runFrameTag]
    rw [this]
    exact h
  | soundStreamBlock =>
    have := (soundStreamBlockTag_proj env s).2.2.2.2
    simp only [runFrameTag]
    rw [this]
    exact h
  | doAction c => exact h
  | setBackgroundColor c => exact h
  | frameLabel l => exact h
  | showFrame => exact h
  | endTag => exact h
  | other => exact h

theorem foldl_rft_unloaded_mono (env : Env) (rda : Bool) (ts : List Tag) :
    ∀ (a : St × Bool) (u : Nat), u ∈ a.1.unloaded →
      u ∈ (ts.foldl (runFrameTag env rda) a).1.unloaded := by
  induction ts with
  | nil => intro a u h; exact h
  | cons hd tl ih =>
    intro a u h
    exact ih (runFrameTag env rda a hd) u (runFrameTag_unloaded_mono env rda a hd u h)

theorem runFrameCore_unloaded_mono (env : Env) (rda : Bool) (s : St) (u : Nat)
    (h : u ∈ s.unloaded) : u ∈ (runFrameCore env rda s).unloaded := by
  have hm := foldl_rft_unloaded_mono env rda
    (splitFrame (env.stream.drop s.tagStreamPos)).1 (s, false) u h
  simp only [runFrameCore]
  split <;> exact hm

theorem gotoPre_unloaded_mono (env : Env) (ir : Bool) (frame : Nat) (s : St)
    (u : Nat) (h : u ∈ s.unloaded) : u ∈ (gotoPre env ir frame s).1.unloaded := by
  cases ir with
  | false =>
    simp only [gotoPre]
    apply foldl_rgc_unloaded_mono
    apply gotoLoop_unloaded_mono
    exact h
  | true =>
    simp only [gotoPre]
    apply foldl_rgc_unloaded_mono
    apply gotoLoop_unloaded_mono
    simp only [rewindPhaseA]
    exact List.mem_append_right _ h

theorem runFrameInternalF_unloaded_mono (env : Env) :
    ∀ (fuel : Nat) (rda : Bool) (s : St) (u : Nat), u ∈ s.unloaded →
      u ∈ (runFrameInternalF env fuel rda s).unloaded := by
  intro fuel
  induction fuel with
  | zero => intro rda s u h; exact h
  | succ k ih =>
    intro rda s u h
    rw [runFrameInternalF_succ]
    split
    · exact runFrameCore_unloaded_mono env rda _ u h
    · split
      · apply gotoPost_unloaded_mono
        apply ih
        exact gotoPre_unloaded_mono env _ 1 s u h
      · apply runFrameCore_unloaded_mono
        rw [(stopClip_proj s).2.2.2.2]
        exact h

theorem runGotoF_rewind_unloaded (env : Env) (fuel : Nat) (n : Nat) (s : St)
    (u : Nat) (hr : n < s.currentFrame) (hu : u ∈ (rewindPhaseA n s).unloaded) :
    u ∈ (runGotoF env fuel n s).unloaded := by
  have hir : decide (n < s.currentFrame) = true := decide_eq_true hr
  simp only [runGotoF, hir]
  apply gotoPost_unloaded_mono
  apply runFrameInternalF_unloaded_mono
  simp only [gotoPre]
  apply foldl_rgc_unloaded_mono
  apply gotoLoop_unloaded_mono
  exact hu

theorem rewindPhaseA_unloads (n : Nat) (s : St) (d : Nat) (c : Child)
    (hl : lookupA d s.children = some c) (hpf : n < c.placeFrame) :
    c.instId ∈ (rewindPhaseA n s).unloaded := by
  simp only [rewindPhaseA]
  refine List.mem_append.mpr (Or.inl ?_)
  exact List.mem_map.mpr
    ⟨(d, c), List.mem_filter.mpr ⟨lookupA_mem d c s.children hl, by simp [hpf]⟩, rfl⟩

/-! ## Claim C4 -/

/-- C4 counterexample: on a fast-forward goto the persists-iff fails — the
live child `cB` at depth 2 has `place_frame = 2 ≤ 5` yet `goto(5)` removes it,
because the intermediate frame 4 carries a RemoveObject tag. -/
theorem goto_persistence_iff_counterexample :
    lookupA 2 st4.children = some cB ∧ cB.placeFrame ≤ 5 ∧
      st4.currentFrame < 5 ∧
      lookupA 2 (gotoFrame env4 true 5 st4).children = none ∧
      cB.instId ∈ (gotoFrame env4 true 5 st4).unloaded := by
  refine ⟨rfl, by decide, by decide, ?_, ?_⟩ <;> decide

/-- C4 (amended): in a **rewind** (target frame below the current frame) the
goto resets the stream position and frame counter to 0, removes exactly the
children placed after the target frame — propagating unload to each — and
every child with `place_frame ≤ target` keeps its identity across the whole
goto. (In a fast-forward, a child with `place_frame ≤ target` may still be
removed by an intermediate RemoveObject tag, so the unrestricted iff fails.) -/
theorem goto_rewind_persistence (env : Env) (n : Nat) (s : St)
    (h1 : 1 ≤ n) (h2 : n ≤ env.totalFrames) (hr : n < s.currentFrame) :
    ((rewindPhaseA n s).tagStreamPos = 0 ∧
      (rewindPhaseA n s).currentFrame = 0 ∧
      (rewindPhaseA n s).children =
        s.children.filter (fun p => decide (p.2.placeFrame ≤ n))) ∧
    (∀ d c, lookupA d s.children = some c → n < c.placeFrame →
      c.instId ∈ (runGoto env n s).unloaded) ∧
    (∀ d c, lookupA d s.children = some c → c.placeFrame ≤ n →
      ∃ c', lookupA d (runGoto env n s).children = some c' ∧
        c'.instId = c.instId) := by
  refine ⟨⟨rfl, rfl, rfl⟩, ?_, ?_⟩
  · intro d c hl hpf
    exact runGotoF_rewind_unloaded env 4 n s c.instId hr
      (rewindPhaseA_unloads n s d c hl hpf)
  · intro d c hl hpf
    exact runGotoF_rewind_keep env 3 n s d c h1 h2 hr hl hpf

/-- C4 witness: rewinding `env5` from frame 3 to frame 1 keeps the identity
of the child placed on frame 1. -/
theorem goto_rewind_persistence_witness :
    ∃ c', lookupA 1 (runGoto env5 1 st5).children = some c' ∧
      c'.instId = cA.instId :=
  (goto_rewind_persistence env5 1 st5 (by decide) (by decide) (by decide)).2.2
    1 cA rfl (by decide)

/-! ## Claim C10 -/

/-- C10: a script-added child gets `place_frame = 0`, and a child with
`place_frame = 0` survives every (in-range) rewind goto with its identity
intact, since the removal condition `place_frame > target` can never hold. -/
theorem script_children_survive_rewind :
    (∀ (s : St) (c : Child) (depth : Nat),
      (lookupA depth (addChildFromAvm s c depth).children).map Child.placeFrame =
        some 0) ∧
    (∀ (env : Env) (n : Nat) (s : St) (d : Nat) (c : Child),
      1 ≤ n → n ≤ env.totalFrames → n < s.currentFrame →
      lookupA d s.children = some c → c.placeFrame = 0 →
      ∃ c', lookupA d (runGoto env n s).children = some c' ∧
        c'.instId = c.instId) := by
  constructor
  · intro s c depth
    simp only [addChildFromAvm]
    rw [lookupA_insertA_self]
    rfl
  · intro env n s d c h1 h2 h3 h4 h5
    exact runGotoF_rewind_keep env 3 n s d c h1 h2 h3 h4 (by omega)

/-- C10 witness: the script-added child `cA0` (place_frame 0) survives the
rewind of `env5` from frame 3 to frame 1. -/
theorem script_children_survive_rewind_witness :
    (lookupA 1 (addChildFromAvm st0 cA 1).children).map Child.placeFrame = some 0 ∧
    ∃ c', lookupA 1 (runGoto env5 1 st10).children = some c' ∧
      c'.instId = cA0.instId :=
  ⟨script_children_survive_rewind.1 st0 cA 1,
   script_children_survive_rewind.2 env5 1 st10 1 cA0 (by decide) (by decide)
     (by decide) rfl rfl⟩

end RuffleMC
